import Mathlib

/-!
Verification of the core behavior of the `github-follower-analyzer` scripts
(`main.py` and `repozitories.py`) against their specification.

The HTTP layer is mocked: a run is parameterized by a function from page
numbers to responses (for the paginated list endpoints) and by a function
from logins to detail-request outcomes (for the per-user detail endpoint).
Every definition mirrors the corresponding Python function; console printing
is not modelled (the spec declares console formatting out of scope).
-/

namespace GFA

/-- A user record as returned by the list endpoints; the scripts only ever
read the `login` field (`main.py:62`, `repozitories.py:58`). -/
structure UserRecord where
  login : String
deriving DecidableEq, Repr

/-- An HTTP response to a list request: status code, parsed JSON body
(a list of user records), and the optional `link` header. -/
structure Response where
  status : Nat
  body : List UserRecord
  link : Option String
deriving DecidableEq, Repr

/-- A GET request issued by the paginated fetch, recording the `page` and
`per_page` query parameters (`main.py:51`, `repozitories.py:44`). -/
structure Request where
  page : Nat
  perPage : Nat
deriving DecidableEq, Repr

/-- Outcome of one `requests.get` call in `get_following_users`:
either a network-level exception or a response. -/
inductive ReqResult where
  | exn
  | resp (r : Response)
deriving DecidableEq, Repr

/-- Models Python `str.lower()` on logins: lower-case every character
(`main.py:62`). -/
def lowerStr (s : String) : String :=
  ⟨s.data.map Char.toLower⟩

/-- Does the list of characters start with the pattern? (Helper for Python's
substring test `x in s`.) -/
def charsStartWith : List Char → List Char → Bool
  | [], _ => true
  | _ :: _, [] => false
  | a :: as, b :: bs => a == b && charsStartWith as bs

/-- Does the pattern occur as a contiguous run in the character list? -/
def charsHaveSub (pat : List Char) : List Char → Bool
  | [] => charsStartWith pat []
  | c :: cs => charsStartWith pat (c :: cs) || charsHaveSub pat cs

/-- Python's substring containment `pat in s`. -/
def strHasSub (s pat : String) : Bool :=
  charsHaveSub pat.data s.data

/-- The pagination-continuation marker looked up in the `link` header
(`main.py:68`, `repozitories.py:60`). -/
def relNextPat : String := "rel=\"next\""

/-- Python truthiness of the `link` header check: the header is present and
contains `rel="next"`. -/
def linkHasNext (r : Response) : Bool :=
  match r.link with
  | some links => strHasSub links relNextPat
  | none => false

/-- The `while True` pagination loop of `get_github_users` (`main.py:49-87`),
with explicit fuel standing for the number of loop iterations still allowed.
Returns `none` when the fuel runs out (the Python loop is still running),
otherwise the list of issued requests paired with the function's result:
`some` accumulated set on success, `none` for the Python `return None`
branches (statuses 401, 403 and any other non-200 status). -/
def getGithubUsersAux (mock : Nat → Response) :
    Nat → Nat → Finset String → Option (List Request × Option (Finset String))
  | 0, _, _ => none
  | fuel + 1, page, acc =>
    let r := mock page
    if r.status = 200 then
      if r.body = [] then some ([⟨page, 100⟩], some acc)
      else
        let acc' := r.body.foldl (fun s u => insert (lowerStr u.login) s) acc
        if linkHasNext r then
          (getGithubUsersAux mock fuel (page + 1) acc').map
            (fun pr => (⟨page, 100⟩ :: pr.1, pr.2))
        else some ([⟨page, 100⟩], some acc')
    else some ([⟨page, 100⟩], none)

/-- Embedding of `get_github_users` (`main.py:23-87`): start the pagination loop at page 1
with an empty accumulated set. -/
def get_github_users (mock : Nat → Response) (fuel : Nat) :
    Option (List Request × Option (Finset String)) :=
  getGithubUsersAux mock fuel 1 ∅

/-- Python falsiness of the token argument (`repozitories.py:27`): `None` or
the empty string. -/
def tokenFalsy : Option String → Bool
  | none => true
  | some s => s = ""

/-- Python `raise_for_status` raises for HTTP error statuses; following the
repository's own test mock, this is modelled as any status `≥ 400`. -/
def raisesForStatus (status : Nat) : Bool :=
  400 ≤ status

/-- The pagination loop of `get_following_users` (`repozitories.py:42-65`):
accumulates raw logins in an order-preserving list; a network-level
exception or a status that `raise_for_status` rejects aborts with the
Python `return None`. -/
def getFollowingAux (mock : Nat → ReqResult) :
    Nat → Nat → List String → Option (List Request × Option (List String))
  | 0, _, _ => none
  | fuel + 1, page, acc =>
    match mock page with
    | .exn => some ([⟨page, 100⟩], none)
    | .resp r =>
      if raisesForStatus r.status then some ([⟨page, 100⟩], none)
      else if r.body = [] then some ([⟨page, 100⟩], some acc)
      else
        let acc' := acc ++ r.body.map (fun u => u.login)
        if linkHasNext r then
          (getFollowingAux mock fuel (page + 1) acc').map
            (fun pr => (⟨page, 100⟩ :: pr.1, pr.2))
        else some ([⟨page, 100⟩], some acc')

/-- Embedding of `get_following_users` (`repozitories.py:23-65`): a falsy token returns
`None` immediately with no request issued; otherwise run the pagination
loop from page 1 with an empty accumulator. -/
def get_following_users (token : Option String) (mock : Nat → ReqResult)
    (fuel : Nat) : Option (List Request × Option (List String)) :=
  if tokenFalsy token then some ([], none)
  else getFollowingAux mock fuel 1 []

/-- The lower-cased logins contributed by one page to the accumulated set of
`get_github_users`. -/
def pageLogins (r : Response) : Finset String :=
  (r.body.map (fun u => lowerStr u.login)).toFinset

/-- The raw logins contributed by one page to the accumulated list of
`get_following_users`. -/
def pageRawLogins (r : Response) : List String :=
  r.body.map (fun u => u.login)

/-- Union of the lower-cased logins of the `k` mocked pages starting at
page `p`. -/
def unionOfPages (mock : Nat → Response) : Nat → Nat → Finset String
  | _, 0 => ∅
  | p, k + 1 => pageLogins (mock p) ∪ unionOfPages mock (p + 1) k

/-- Concatenation of the raw logins of the `k` mocked pages starting at
page `p`. -/
def concatOfPages (mock : Nat → Response) : Nat → Nat → List String
  | _, 0 => []
  | p, k + 1 => pageRawLogins (mock p) ++ concatOfPages mock (p + 1) k

/-- The requests issued for `k` consecutive pages starting at page `p`, each
with `per_page = 100`. -/
def reqRange (p k : Nat) : List Request :=
  (List.range' p k).map (fun i => ⟨i, 100⟩)

/-- A mocked page that keeps the pagination going: HTTP 200, non-empty body,
and a `link` header containing `rel="next"`. -/
def goodPage (r : Response) : Prop :=
  r.status = 200 ∧ r.body ≠ [] ∧ linkHasNext r = true

/-- The mocked final page of the scenario: HTTP 200, empty body, no `link`
header. -/
def lastPage (r : Response) : Prop :=
  r.status = 200 ∧ r.body = [] ∧ r.link = none

instance (r : Response) : Decidable (goodPage r) :=
  inferInstanceAs (Decidable (r.status = 200 ∧ r.body ≠ [] ∧ linkHasNext r = true))

instance (r : Response) : Decidable (lastPage r) :=
  inferInstanceAs (Decidable (r.status = 200 ∧ r.body = [] ∧ r.link = none))

/-- The parsed JSON body of a detail lookup, reduced to the only field the
script reads: `public_repos` when present (`repozitories.py:105-106`). -/
structure UserDetail where
  public_repos : Option Int
deriving DecidableEq, Repr

/-- Outcome of the `requests.get` call of `get_user_details`: a network-level
exception, or a response with its status and parsed body. -/
inductive DetailOutcome where
  | exn
  | resp (status : Nat) (body : UserDetail)
deriving DecidableEq, Repr

/-- Embedding of `get_user_details` (`repozitories.py:67-84`): any exception — a transport
error, or `raise_for_status` on an error status — yields the Python
`return None`; otherwise the parsed body is returned. -/
def get_user_details (outcome : DetailOutcome) : Option UserDetail :=
  match outcome with
  | .exn => none
  | .resp status body => if raisesForStatus status then none else some body

/-- A record appended by `find_users_with_low_repos`
(`repozitories.py:109`): `{'username': user, 'repos': public_repos}`. -/
structure LowRec where
  username : String
  repos : Int
deriving DecidableEq, Repr

/-- An observable event of the enrichment loop: a sleep of a given duration
or a detail GET request for a login. -/
inductive EnrichEv where
  | sleep (duration : ℚ)
  | detailReq (login : String)
deriving DecidableEq, Repr

/-- The `for` loop of `find_users_with_low_repos` (`repozitories.py:99-111`):
for each login in order, sleep 0.5 seconds, issue the detail lookup, and on
a truthy result carrying `public_repos` append the record when
`public_repos <= 2`; any failed lookup (or missing field) is skipped and the
loop continues. Returns the event trace paired with the accumulated
records. -/
def enrichLoop (detail : String → DetailOutcome) :
    List String → List EnrichEv × List LowRec
  | [] => ([], [])
  | u :: us =>
    let rest := enrichLoop detail us
    let evs : List EnrichEv := [.sleep (1 / 2), .detailReq u]
    match get_user_details (detail u) with
    | some d =>
      match d.public_repos with
      | some n =>
        if n ≤ 2 then (evs ++ rest.1, ⟨u, n⟩ :: rest.2)
        else (evs ++ rest.1, rest.2)
      | none => (evs ++ rest.1, rest.2)
    | none => (evs ++ rest.1, rest.2)

/-- The sort `sorted(users, key=lambda x: x['username'])` used before every
write (`repozitories.py:116,133,142`). -/
def byUsername (a b : LowRec) : Prop :=
  a.username ≤ b.username

instance : DecidableRel byUsername :=
  fun a b => inferInstanceAs (Decidable (a.username ≤ b.username))

instance : IsTotal LowRec byUsername :=
  ⟨fun a b => le_total a.username b.username⟩

instance : IsTrans LowRec byUsername :=
  ⟨fun _ _ _ h h' => le_trans h h'⟩

/-- Sorting of the result records by username before writing. -/
def sortByUsername (users : List LowRec) : List LowRec :=
  List.insertionSort byUsername users

/-- One `- <username> (<repos> repositories)` line of the text export
(`repozitories.py:134`). -/
def txtLine (u : LowRec) : String :=
  "- " ++ u.username ++ " (" ++ toString u.repos ++ " repositories)\n"

/-- Embedding of `write_low_repo_users_txt` (`repozitories.py:129-135`): the full content
written to the text file. -/
def write_low_repo_users_txt (users : List LowRec) : String :=
  "--- Users with 2 or Fewer Repositories ---\n\n" ++
    String.join ((sortByUsername users).map txtLine) ++
    "\n--- Done ---\n"

/-- Embedding of `write_low_repo_users_csv` (`repozitories.py:137-143`): the sequence of
rows handed to `csv.writer.writerow` — a header row, then one row per
record. -/
def write_low_repo_users_csv (users : List LowRec) : List (List String) :=
  ["Username", "Public Repositories"] ::
    (sortByUsername users).map (fun u => [u.username, toString u.repos])

/-- The file produced by the export step, tagged with its format. -/
inductive ExportFile where
  | txt (content : String)
  | csv (rows : List (List String))
deriving DecidableEq, Repr

/-- Observable outcome of one completed `find_users_with_low_repos` run:
the accumulated low-repo records, the trace of sleeps and detail requests,
and the file written (if an output file was requested). -/
structure EnrichRun where
  lowRepoUsers : List LowRec
  trace : List EnrichEv
  written : Option ExportFile
deriving DecidableEq, Repr

/-- Embedding of `find_users_with_low_repos` (`repozitories.py:86-127`): fetch the
following list; on failure return at once (no detail request, no file
write — the inner `none`); otherwise run the enrichment loop and, when an
output file is given, write it in the requested format. The outer `none`
again stands for fuel exhaustion inside the list fetch. -/
def find_users_with_low_repos (username : String) (token : Option String)
    (listMock : Nat → ReqResult) (fuel : Nat)
    (detail : String → DetailOutcome)
    (outputFile : Option String) (outputFormat : String) :
    Option (Option EnrichRun) :=
  match get_following_users token listMock fuel with
  | none => none
  | some (_, none) => some none
  | some (_, some users) =>
    let run := enrichLoop detail users
    let written : Option ExportFile :=
      match outputFile with
      | none => none
      | some _ =>
        if outputFormat = "csv" then some (.csv (write_low_repo_users_csv run.2))
        else some (.txt (write_low_repo_users_txt run.2))
    some (some ⟨run.2, run.1, written⟩)

/-- The pure comparison step of `compare_github_relationships`
(`main.py:110-117`): `non_followers = following - followers` and
`fans = followers - following`. -/
def compareRelationships (followers following : Finset String) :
    Finset String × Finset String :=
  (following \ followers, followers \ following)

/-- Observable outcome of `compare_github_relationships`: an early return
because a list fetch failed, or the two computed set differences. -/
inductive CompareOutcome where
  | fetchFailed
  | ok (nonFollowers fans : Finset String)
deriving DecidableEq

/-- Embedding of `compare_github_relationships` (`main.py:89-138`): fetch followers, then
following, aborting on the first `None`; otherwise compute the two set
differences. `none` stands for fuel exhaustion inside a fetch. -/
def compare_github_relationships (followersMock followingMock : Nat → Response)
    (fuel : Nat) : Option CompareOutcome :=
  match get_github_users followersMock fuel with
  | none => none
  | some (_, none) => some .fetchFailed
  | some (_, some followers) =>
    match get_github_users followingMock fuel with
    | none => none
    | some (_, none) => some .fetchFailed
    | some (_, some following) =>
      some (.ok (compareRelationships followers following).1
        (compareRelationships followers following).2)

/-- Modelled from the spec (§4.3): the enrichment contract with the
threshold as an explicit integer configuration parameter, as the spec
requires of the detail-enrichment step — the source has no such parameter.
Appends `{username, repoCount}` iff `public_repos <= threshold`. -/
def enrichWithThreshold (threshold : Int) (detail : String → DetailOutcome) :
    List String → List LowRec
  | [] => []
  | u :: us =>
    let rest := enrichWithThreshold threshold detail us
    match get_user_details (detail u) with
    | some d =>
      match d.public_repos with
      | some n => if n ≤ threshold then ⟨u, n⟩ :: rest else rest
      | none => rest
    | none => rest

/-- A successful detail lookup together with its `public_repos` field, when
both are present. -/
def detailRepos (o : DetailOutcome) : Option Int :=
  (get_user_details o).bind (fun d => d.public_repos)

/-- The record that one login contributes to the enrichment result: `none`
when the lookup fails or lacks `public_repos`, or when the count exceeds the
hardcoded bound 2. -/
def qualifies (detail : String → DetailOutcome) (u : String) : Option LowRec :=
  match get_user_details (detail u) with
  | some d =>
    match d.public_repos with
    | some n => if n ≤ 2 then some ⟨u, n⟩ else none
    | none => none
  | none => none

/-- The logins queried by the detail requests of an enrichment trace. -/
def traceRequests (tr : List EnrichEv) : List String :=
  tr.filterMap (fun ev => match ev with | .detailReq u => some u | .sleep _ => none)

/-- A two-page mocked sequence instantiating the pagination-termination
scenario: page 1 is non-empty with a `rel="next"` link, page 2 is empty with
no link header. -/
def c1mock : Nat → Response := fun n =>
  if n = 1 then
    ⟨200, [⟨"Alice"⟩, ⟨"Bob"⟩], some "<https://api.github.com/x?page=2>; rel=\"next\""⟩
  else ⟨200, [], none⟩

/-! ### Helper lemmas -/

lemma foldl_insert_eq (l : List UserRecord) (acc : Finset String) :
    l.foldl (fun s u => insert (lowerStr u.login) s) acc =
      acc ∪ (l.map (fun u => lowerStr u.login)).toFinset := by
  induction l generalizing acc with
  | nil => simp
  | cons a l ih =>
    simp only [List.foldl_cons, ih, List.map_cons, List.toFinset_cons]
    ext x
    simp only [Finset.mem_union, Finset.mem_insert, List.mem_toFinset]
    tauto

lemma reqRange_succ (p k : Nat) :
    reqRange p (k + 1) = ⟨p, 100⟩ :: reqRange (p + 1) k := by
  simp [reqRange, List.range']

lemma reqRange_concat (p k : Nat) :
    reqRange p (k + 1) = reqRange p k ++ [⟨p + k, 100⟩] := by
  induction k generalizing p with
  | zero => simp [reqRange, List.range']
  | succ k ih =>
    have hn : p + 1 + k = p + (k + 1) := by omega
    rw [reqRange_succ p (k + 1), ih (p + 1), reqRange_succ p k, hn]
    simp

lemma ghAux_good (mock : Nat → Response) (fuel page : Nat) (acc : Finset String)
    (hg : goodPage (mock page)) :
    getGithubUsersAux mock (fuel + 1) page acc =
      (getGithubUsersAux mock fuel (page + 1) (acc ∪ pageLogins (mock page))).map
        (fun pr => (⟨page, 100⟩ :: pr.1, pr.2)) := by
  obtain ⟨hs, hb, hl⟩ := hg
  simp only [getGithubUsersAux, hs, hb, hl, if_true, if_false, if_pos, if_neg,
    foldl_insert_eq, pageLogins]

lemma ghAux_last (mock : Nat → Response) (fuel page : Nat) (acc : Finset String)
    (hl : lastPage (mock page)) :
    getGithubUsersAux mock (fuel + 1) page acc = some ([⟨page, 100⟩], some acc) := by
  obtain ⟨hs, hb, _⟩ := hl
  simp [getGithubUsersAux, hs, hb]

lemma ghAux_bad (mock : Nat → Response) (fuel page : Nat) (acc : Finset String)
    (hs : (mock page).status ≠ 200) :
    getGithubUsersAux mock (fuel + 1) page acc = some ([⟨page, 100⟩], none) := by
  simp [getGithubUsersAux, hs]

lemma ghAux_run_good (mock : Nat → Response) (k : Nat) :
    ∀ (p fuel : Nat) (acc : Finset String),
      (∀ i, i < k → goodPage (mock (p + i))) →
      getGithubUsersAux mock (k + fuel + 1) p acc =
        (getGithubUsersAux mock (fuel + 1) (p + k) (acc ∪ unionOfPages mock p k)).map
          (fun pr => (reqRange p k ++ pr.1, pr.2)) := by
  induction k with
  | zero =>
    intro p fuel acc _
    cases h : getGithubUsersAux mock (fuel + 1) p acc <;>
      simp [reqRange, unionOfPages, h]
  | succ k ih =>
    intro p fuel acc hgood
    have hstep : getGithubUsersAux mock (k + 1 + fuel + 1) p acc =
        (getGithubUsersAux mock (k + fuel + 1) (p + 1) (acc ∪ pageLogins (mock p))).map
          (fun pr => ((⟨p, 100⟩ : Request) :: pr.1, pr.2)) := by
      have h1 : k + 1 + fuel + 1 = (k + fuel + 1) + 1 := by omega
      rw [h1]
      exact ghAux_good mock (k + fuel + 1) p acc (by simpa using hgood 0 (by omega))
    rw [hstep, ih (p + 1) fuel (acc ∪ pageLogins (mock p))
      (fun i hi => by
        have := hgood (i + 1) (by omega)
        simpa [Nat.add_assoc, Nat.add_comm 1 i] using this)]
    have hpk : p + 1 + k = p + (k + 1) := by omega
    rw [hpk, Finset.union_assoc, Option.map_map]
    simp only [unionOfPages]
    congr 1

lemma gfAux_good (fm : Nat → ReqResult) (r : Response) (fuel page : Nat)
    (acc : List String) (hr : fm page = .resp r) (hg : goodPage r) :
    getFollowingAux fm (fuel + 1) page acc =
      (getFollowingAux fm fuel (page + 1) (acc ++ pageRawLogins r)).map
        (fun pr => (⟨page, 100⟩ :: pr.1, pr.2)) := by
  obtain ⟨hs, hb, hl⟩ := hg
  have hraise : raisesForStatus 200 = false := by decide
  simp only [getFollowingAux, hr, hs, hraise, hb, hl, if_true, if_false,
    Bool.false_eq_true, pageRawLogins]

lemma gfAux_last (fm : Nat → ReqResult) (r : Response) (fuel page : Nat)
    (acc : List String) (hr : fm page = .resp r) (hl : lastPage r) :
    getFollowingAux fm (fuel + 1) page acc = some ([⟨page, 100⟩], some acc) := by
  obtain ⟨hs, hb, _⟩ := hl
  have hraise : raisesForStatus r.status = false := by
    rw [hs]; decide
  simp [getFollowingAux, hr, hraise, hb]

lemma gfAux_exn (fm : Nat → ReqResult) (fuel page : Nat) (acc : List String)
    (hr : fm page = .exn) :
    getFollowingAux fm (fuel + 1) page acc = some ([⟨page, 100⟩], none) := by
  simp [getFollowingAux, hr]

lemma gfAux_err (fm : Nat → ReqResult) (r : Response) (fuel page : Nat)
    (acc : List String) (hr : fm page = .resp r)
    (hs : raisesForStatus r.status = true) :
    getFollowingAux fm (fuel + 1) page acc = some ([⟨page, 100⟩], none) := by
  simp [getFollowingAux, hr, hs]

lemma gfAux_run_good (mock : Nat → Response) (fm : Nat → ReqResult) (k : Nat) :
    ∀ (p fuel : Nat) (acc : List String),
      (∀ i, i < k → fm (p + i) = .resp (mock (p + i))) →
      (∀ i, i < k → goodPage (mock (p + i))) →
      getFollowingAux fm (k + fuel + 1) p acc =
        (getFollowingAux fm (fuel + 1) (p + k) (acc ++ concatOfPages mock p k)).map
          (fun pr => (reqRange p k ++ pr.1, pr.2)) := by
  induction k with
  | zero =>
    intro p fuel acc _ _
    cases h : getFollowingAux fm (fuel + 1) p acc <;>
      simp [reqRange, concatOfPages, h]
  | succ k ih =>
    intro p fuel acc hagree hgood
    have hstep : getFollowingAux fm (k + 1 + fuel + 1) p acc =
        (getFollowingAux fm (k + fuel + 1) (p + 1) (acc ++ pageRawLogins (mock p))).map
          (fun pr => ((⟨p, 100⟩ : Request) :: pr.1, pr.2)) := by
      have h1 : k + 1 + fuel + 1 = (k + fuel + 1) + 1 := by omega
      rw [h1]
      exact gfAux_good fm (mock p) (k + fuel + 1) p acc
        (by simpa using hagree 0 (by omega)) (by simpa using hgood 0 (by omega))
    rw [hstep, ih (p + 1) fuel (acc ++ pageRawLogins (mock p))
      (fun i hi => by
        have := hagree (i + 1) (by omega)
        simpa [Nat.add_assoc, Nat.add_comm 1 i] using this)
      (fun i hi => by
        have := hgood (i + 1) (by omega)
        simpa [Nat.add_assoc, Nat.add_comm 1 i] using this)]
    have hpk : p + 1 + k = p + (k + 1) := by omega
    rw [hpk, List.append_assoc, Option.map_map]
    simp only [concatOfPages]
    congr 1

example : strHasSub "<url>; rel=\"next\", <url>; rel=\"last\"" relNextPat = true := by decide

example : lowerStr "Alice" = "alice" := by decide

example :
    get_github_users (fun _ => ⟨200, [⟨"Alice"⟩, ⟨"Bob"⟩], none⟩) 1 =
      some ([⟨1, 100⟩], some {"bob", "alice"}) := by decide

/-! ### Claim theorems -/

/-- C1: for every mocked sequence in which each page `1..k` is an HTTP 200
response with a non-empty record list and a `rel="next"` link header, and
page `k+1` is an HTTP 200 response with an empty list and no link header,
both `get_github_users` and `get_following_users` issue exactly the `k+1`
requests with query parameters `page = 1..k+1` and `per_page = 100`, and
return the union (respectively the concatenation) of the records of pages
`1..k`. -/
theorem spec_C1 (k : Nat) (mock : Nat → Response) (token : Option String)
    (htok : tokenFalsy token = false)
    (hgood : ∀ i, i < k → goodPage (mock (1 + i)))
    (hlast : lastPage (mock (1 + k))) :
    get_github_users mock (k + 1) =
        some (reqRange 1 (k + 1), some (unionOfPages mock 1 k)) ∧
      get_following_users token (fun i => .resp (mock i)) (k + 1) =
        some (reqRange 1 (k + 1), some (concatOfPages mock 1 k)) := by
  have h0 : k + 1 = k + 0 + 1 := by omega
  constructor
  · show getGithubUsersAux mock (k + 1) 1 ∅ = _
    rw [h0, ghAux_run_good mock k 1 0 ∅ hgood,
      ghAux_last mock 0 (1 + k) (∅ ∪ unionOfPages mock 1 k) hlast]
    simp [reqRange_concat]
  · show (if tokenFalsy token = true then some ([], none)
      else getFollowingAux (fun i => .resp (mock i)) (k + 1) 1 []) = _
    rw [htok]
    simp only [Bool.false_eq_true, if_false]
    rw [h0, gfAux_run_good mock (fun i => .resp (mock i)) k 1 0 []
        (fun i _ => rfl) hgood,
      gfAux_last (fun i => .resp (mock i)) (mock (1 + k)) 0 (1 + k)
        ([] ++ concatOfPages mock 1 k) rfl hlast]
    simp [reqRange_concat]

/-- Witness for C1 at `k = 1`: a concrete two-page mock. -/
theorem spec_C1_witness :
    get_github_users c1mock 2 =
        some (reqRange 1 2, some (unionOfPages c1mock 1 1)) ∧
      get_following_users (some "tok") (fun i => .resp (c1mock i)) 2 =
        some (reqRange 1 2, some (concatOfPages c1mock 1 1)) := by
  refine spec_C1 1 c1mock (some "tok") (by decide) ?_ (by decide)
  intro i hi
  have hz : i = 0 := by omega
  subst hz
  decide

/-- C2: the relationship comparison computes
`nonFollowers = following − followers` and `fans = followers − following`,
and consequently `nonFollowers` is disjoint from the followers and `fans` is
disjoint from the following — for overlapping as well as disjoint sets. -/
theorem spec_C2 (followers following : Finset String) :
    compareRelationships followers following =
        (following \ followers, followers \ following) ∧
      (compareRelationships followers following).1 ∩ followers = ∅ ∧
      (compareRelationships followers following).2 ∩ following = ∅ := by
  refine ⟨rfl, ?_, ?_⟩ <;> simp [compareRelationships, Finset.sdiff_inter_self]

/-- C5: `get_github_users` lower-cases every login before inserting it, so
two logins with the same lower-casing land on the same element of the
resulting set, while `get_following_users` appends the logins verbatim. -/
theorem spec_C5 (s t : String) (h : lowerStr s = lowerStr t) :
    get_github_users (fun _ => ⟨200, [⟨s⟩], none⟩) 1 =
        some ([⟨1, 100⟩], some {lowerStr s}) ∧
      get_github_users (fun _ => ⟨200, [⟨t⟩], none⟩) 1 =
        some ([⟨1, 100⟩], some {lowerStr s}) ∧
      get_following_users (some "tok") (fun _ => .resp ⟨200, [⟨s⟩], none⟩) 1 =
        some ([⟨1, 100⟩], some [s]) ∧
      get_following_users (some "tok") (fun _ => .resp ⟨200, [⟨t⟩], none⟩) 1 =
        some ([⟨1, 100⟩], some [t]) := by
  refine ⟨?_, ?_, ?_, ?_⟩
  · simp [get_github_users, getGithubUsersAux, linkHasNext]
  · rw [h]
    simp [get_github_users, getGithubUsersAux, linkHasNext]
  · simp [get_following_users, getFollowingAux, tokenFalsy, linkHasNext,
      raisesForStatus]
  · simp [get_following_users, getFollowingAux, tokenFalsy, linkHasNext,
      raisesForStatus]

/-- Witness for C5 at the spec's own example logins `"Alice"` and
`"alice"`. -/
theorem spec_C5_witness :
    lowerStr "Alice" = lowerStr "alice" ∧
      (get_github_users (fun _ => ⟨200, [⟨"Alice"⟩], none⟩) 1 =
          some ([⟨1, 100⟩], some {lowerStr "Alice"}) ∧
        get_github_users (fun _ => ⟨200, [⟨"alice"⟩], none⟩) 1 =
          some ([⟨1, 100⟩], some {lowerStr "Alice"}) ∧
        get_following_users (some "tok")
            (fun _ => .resp ⟨200, [⟨"Alice"⟩], none⟩) 1 =
          some ([⟨1, 100⟩], some ["Alice"]) ∧
        get_following_users (some "tok")
            (fun _ => .resp ⟨200, [⟨"alice"⟩], none⟩) 1 =
          some ([⟨1, 100⟩], some ["alice"])) :=
  ⟨by decide, spec_C5 "Alice" "alice" (by decide)⟩

/-- C10: a falsy token (Python `None` or the empty string) makes
`get_following_users` return `None` immediately, with no HTTP request
issued. -/
theorem spec_C10 (token : Option String) (mock : Nat → ReqResult) (fuel : Nat)
    (h : tokenFalsy token = true) :
    get_following_users token mock fuel = some ([], none) := by
  simp [get_following_users, h]

/-- Witness for C10 at the empty-string token. -/
theorem spec_C10_witness :
    tokenFalsy (some "") = true ∧
      get_following_users (some "") (fun _ => .exn) 0 = some ([], none) :=
  ⟨by decide, spec_C10 (some "") (fun _ => .exn) 0 (by decide)⟩

/-- C9: when the initial list fetch returns `None`, the entry points return
at once: `find_users_with_low_repos` performs no detail request and writes
no output file (outcome `some none`), and `compare_github_relationships`
stops with `fetchFailed` before any comparison. -/
theorem spec_C9 (uname : String) (token : Option String)
    (listMock : Nat → ReqResult) (fuel : Nat)
    (detail : String → DetailOutcome) (outFile : Option String)
    (outFmt : String) (reqs : List Request)
    (hfail : get_following_users token listMock fuel = some (reqs, none))
    (followersMock followingMock : Nat → Response) (fuel2 : Nat)
    (reqs2 : List Request)
    (hfail2 : get_github_users followersMock fuel2 = some (reqs2, none)) :
    find_users_with_low_repos uname token listMock fuel detail outFile outFmt =
        some none ∧
      compare_github_relationships followersMock followingMock fuel2 =
        some .fetchFailed := by
  constructor
  · simp [find_users_with_low_repos, hfail]
  · simp [compare_github_relationships, hfail2]

/-- Witness for C9: a 401 on page 1 of each initial fetch. -/
theorem spec_C9_witness :
    find_users_with_low_repos "user" (some "tok")
        (fun _ => .resp ⟨401, [], none⟩) 1 (fun _ => .exn)
        (some "out.txt") "txt" = some none ∧
      compare_github_relationships (fun _ => ⟨401, [], none⟩)
        (fun _ => ⟨401, [], none⟩) 1 = some .fetchFailed :=
  spec_C9 "user" (some "tok") (fun _ => .resp ⟨401, [], none⟩) 1 (fun _ => .exn)
    (some "out.txt") "txt" [⟨1, 100⟩] (by decide)
    (fun _ => ⟨401, [], none⟩) (fun _ => ⟨401, [], none⟩) 1 [⟨1, 100⟩]
    (by decide)

/-- C3 as stated is false for `get_following_users`: a non-200 status below
400 (here 204) does not make `raise_for_status` raise, so the fetch returns
the page's records instead of the failure signal `None`. -/
theorem spec_C3_cex :
    get_following_users (some "tok")
        (fun _ => .resp ⟨204, [⟨"alice"⟩], none⟩) 1 =
      some ([⟨1, 100⟩], some ["alice"]) ∧ (204 : Nat) ≠ 200 := by
  constructor
  · decide
  · decide

/-- C3 amended: after any number of good pages, `get_github_users` returns
`None` with no accumulated records as soon as a page answers with any
non-200 status, and `get_following_users` does so as soon as a page raises a
network-level exception or answers with a status that `raise_for_status`
rejects (≥ 400); statuses in 200..399 are not failures there. -/
theorem spec_C3 (k : Nat) (mock : Nat → Response) (fm : Nat → ReqResult)
    (token : Option String) (htok : tokenFalsy token = false)
    (hgood : ∀ i, i < k → goodPage (mock (1 + i)))
    (hbad : (mock (1 + k)).status ≠ 200)
    (hagree : ∀ i, i < k → fm (1 + i) = .resp (mock (1 + i)))
    (hbadf : fm (1 + k) = .exn ∨
      ∃ r, fm (1 + k) = .resp r ∧ raisesForStatus r.status = true) :
    get_github_users mock (k + 1) = some (reqRange 1 (k + 1), none) ∧
      get_following_users token fm (k + 1) = some (reqRange 1 (k + 1), none) := by
  have h0 : k + 1 = k + 0 + 1 := by omega
  constructor
  · show getGithubUsersAux mock (k + 1) 1 ∅ = _
    rw [h0, ghAux_run_good mock k 1 0 ∅ hgood,
      ghAux_bad mock 0 (1 + k) (∅ ∪ unionOfPages mock 1 k) hbad]
    simp [reqRange_concat]
  · show (if tokenFalsy token = true then some ([], none)
      else getFollowingAux fm (k + 1) 1 []) = _
    rw [htok]
    simp only [Bool.false_eq_true, if_false]
    rw [h0, gfAux_run_good mock fm k 1 0 [] hagree hgood]
    rcases hbadf with hexn | ⟨r, hr, hrs⟩
    · rw [gfAux_exn fm 0 (1 + k) ([] ++ concatOfPages mock 1 k) hexn]
      simp [reqRange_concat]
    · rw [gfAux_err fm r 0 (1 + k) ([] ++ concatOfPages mock 1 k) hr hrs]
      simp [reqRange_concat]

/-- Witness for the amended C3: a 401 on page 1 of both fetches. -/
theorem spec_C3_witness :
    get_github_users (fun _ => ⟨401, [], none⟩) 1 =
        some (reqRange 1 1, none) ∧
      get_following_users (some "tok") (fun _ => .resp ⟨401, [], none⟩) 1 =
        some (reqRange 1 1, none) :=
  spec_C3 0 (fun _ => ⟨401, [], none⟩) (fun _ => .resp ⟨401, [], none⟩)
    (some "tok") (by decide) (fun i hi => absurd hi (by omega)) (by decide)
    (fun i hi => absurd hi (by omega))
    (Or.inr ⟨⟨401, [], none⟩, rfl, by decide⟩)

/-- C4 as stated is false: a detail lookup answered with the non-200 status
201 and a `public_repos` field is appended, not skipped, because
`raise_for_status` accepts every status below 400. -/
theorem spec_C4_cex :
    (enrichLoop (fun u => .resp (if u = "u2" then 201 else 200) ⟨some 0⟩)
        ["u1", "u2", "u3"]).2 =
      [⟨"u1", 0⟩, ⟨"u2", 0⟩, ⟨"u3", 0⟩] ∧ (201 : Nat) ≠ 200 := by
  constructor
  · decide
  · decide

/-- C4 amended: the enrichment result is exactly the qualifying records of
the logins whose detail lookup succeeds (no exception, no status that
`raise_for_status` rejects, and a `public_repos` field present), in input
order; a failing login contributes nothing and the batch continues. -/
theorem spec_C4 (detail : String → DetailOutcome) (logins : List String) :
    (enrichLoop detail logins).2 = logins.filterMap (qualifies detail) ∧
      (∀ u, get_user_details (detail u) = none → qualifies detail u = none) ∧
      (∀ u d, get_user_details (detail u) = some d → d.public_repos = none →
        qualifies detail u = none) := by
  refine ⟨?_, ?_, ?_⟩
  · induction logins with
    | nil => simp [enrichLoop]
    | cons u us ih =>
      simp only [enrichLoop, List.filterMap_cons]
      cases h : get_user_details (detail u) with
      | none => simpa [qualifies, h] using ih
      | some d =>
        cases hd : d.public_repos with
        | none => simpa [qualifies, h, hd] using ih
        | some n =>
          by_cases hn : n ≤ 2 <;> simp [qualifies, h, hd, hn, ih]
  · intro u h
    simp [qualifies, h]
  · intro u d h hd
    simp [qualifies, h, hd]

/-- Witness for the amended C4 at the spec's example: three logins whose
second detail lookup raises a transport error. -/
theorem spec_C4_witness :
    (enrichLoop (fun u => if u = "u2" then .exn else .resp 200 ⟨some 1⟩)
        ["u1", "u2", "u3"]).2 = [⟨"u1", 1⟩, ⟨"u3", 1⟩] := by
  rw [(spec_C4 (fun u => if u = "u2" then .exn else .resp 200 ⟨some 1⟩)
    ["u1", "u2", "u3"]).1]
  decide

/-- C6 as stated is false: the enrichment has no threshold parameter — the
bound 2 is hardcoded (`repozitories.py:108`). With the spec's contract at
threshold 1, a login with 2 public repositories must not be appended, yet
the code appends it. -/
theorem spec_C6_cex :
    enrichWithThreshold 1 (fun _ => .resp 200 ⟨some 2⟩) ["bob"] = [] ∧
      (enrichLoop (fun _ => .resp 200 ⟨some 2⟩) ["bob"]).2 = [⟨"bob", 2⟩] := by
  constructor
  · decide
  · decide

/-- C6 amended: the threshold is the hardcoded constant 2, and a login whose
detail lookup succeeds with `public_repos = n` is appended as
`{username, repos}` iff `n ≤ 2`. -/
theorem spec_C6 (detail : String → DetailOutcome) (u : String) (n : Int)
    (h : detailRepos (detail u) = some n) :
    (enrichLoop detail [u]).2 = if n ≤ 2 then [⟨u, n⟩] else [] := by
  unfold detailRepos at h
  cases hd : get_user_details (detail u) with
  | none => rw [hd] at h; simp at h
  | some d =>
    rw [hd] at h
    simp only [Option.some_bind] at h
    by_cases hn : n ≤ 2 <;> simp [enrichLoop, hd, h, hn]

/-- Witness for the amended C6: a login with one public repository is
appended. -/
theorem spec_C6_witness :
    (enrichLoop (fun _ => .resp 200 ⟨some 1⟩) ["bob"]).2 = [⟨"bob", 1⟩] := by
  have h := spec_C6 (fun _ => .resp 200 ⟨some 1⟩) "bob" 1 (by decide)
  simpa using h

/-- C7: once started, the enrichment loop over `N` logins issues exactly `N`
sequential detail requests, one per login in input order, each accompanied
by a sleep of 0.5 time-units, independently of any individual lookup
failures — there is no early-abort path. -/
theorem spec_C7 (detail : String → DetailOutcome) (logins : List String) :
    (enrichLoop detail logins).1 =
        (logins.map (fun u => [EnrichEv.sleep (1 / 2), EnrichEv.detailReq u])).flatten ∧
      traceRequests (enrichLoop detail logins).1 = logins := by
  have h1 : (enrichLoop detail logins).1 =
      (logins.map (fun u => [EnrichEv.sleep (1 / 2), EnrichEv.detailReq u])).flatten := by
    induction logins with
    | nil => simp [enrichLoop]
    | cons u us ih =>
      simp only [enrichLoop, List.map_cons, List.flatten_cons]
      cases h : get_user_details (detail u) with
      | none => simp [h, ih]
      | some d =>
        cases hd : d.public_repos with
        | none => simp [h, hd, ih]
        | some n => by_cases hn : n ≤ 2 <;> simp [h, hd, hn, ih]
  refine ⟨h1, ?_⟩
  rw [h1]
  clear h1
  induction logins with
  | nil => simp [traceRequests]
  | cons u us ih =>
    simpa [traceRequests, List.flatten_cons] using ih

/-- C8: both exporters sort the records by username before writing — the
sorted list is a permutation of the input, sorted under the username
order — and the text export is the labeled section with one
`- <login> (<n> repositories)` line per entry while the CSV export is the
header row followed by exactly one data row per entry, in sorted order. -/
theorem spec_C8 (users : List LowRec) :
    (sortByUsername users).Perm users ∧
      List.Sorted byUsername (sortByUsername users) ∧
      write_low_repo_users_txt users =
        "--- Users with 2 or Fewer Repositories ---\n\n" ++
          String.join ((sortByUsername users).map txtLine) ++
          "\n--- Done ---\n" ∧
      write_low_repo_users_csv users =
        ["Username", "Public Repositories"] ::
          (sortByUsername users).map (fun u => [u.username, toString u.repos]) ∧
      (write_low_repo_users_csv users).length = users.length + 1 := by
  refine ⟨List.perm_insertionSort byUsername users,
    List.sorted_insertionSort byUsername users, rfl, rfl, ?_⟩
  have hlen : (sortByUsername users).length = users.length :=
    (List.perm_insertionSort byUsername users).length_eq
  simp [write_low_repo_users_csv, hlen]

end GFA
